import Mathlib

/-
Verification of the dual-viewport image inspector of the background_remover
repository.  The definitions below are a shallow embedding of the Python
source (file 5_sync.py, and the identical remove_background of cli_rb.py):
zoom levels are modelled as rationals, pan offsets as integers, PIL images
as records carrying mode, dimensions and a pixel buffer.  External
collaborators (the rembg model, the LANCZOS resampler, file decoding) are
parameters of the functions that call them.
-/

namespace BackgroundRemover

/-- One pixel: red, green, blue, alpha channels (byte values as naturals). -/
structure Pixel where
  r : Nat
  g : Nat
  b : Nat
  a : Nat
deriving DecidableEq

/-- A PIL image value: mode string (for example RGB or RGBA), dimensions,
and a row-major pixel buffer. -/
structure PILImage where
  mode : String
  width : Nat
  height : Nat
  pixels : List Pixel
deriving DecidableEq

instance : Inhabited PILImage := ⟨⟨"RGB", 0, 0, []⟩⟩

/-- Floor of a rational, computed on the numerator and denominator. -/
def ratFloor (q : ℚ) : ℤ := q.num.fdiv q.den

/-- Ceiling of a rational, computed as the negated floor of the negation. -/
def ratCeil (q : ℚ) : ℤ := -ratFloor (-q)

/-- Python int() applied to a float expression: truncation toward zero. -/
def pyInt (q : ℚ) : ℤ := if 0 ≤ q then ratFloor q else ratCeil q

/-- Python max of two comparable values. -/
def pyMax {α : Type} [LinearOrder α] (x y : α) : α := if x ≤ y then y else x

/-- Python min of two comparable values. -/
def pyMin {α : Type} [LinearOrder α] (x y : α) : α := if x ≤ y then x else y

theorem ratFloor_eq (q : ℚ) : ratFloor q = ⌊q⌋ := by
  rw [Rat.floor_def, ratFloor, Int.fdiv_eq_ediv _ (by positivity)]

theorem ratCeil_eq (q : ℚ) : ratCeil q = ⌈q⌉ := by
  rw [ratCeil, ratFloor_eq, ← Int.ceil_neg, neg_neg]

theorem pyMax_eq {α : Type} [LinearOrder α] (x y : α) : pyMax x y = max x y :=
  (max_def x y).symm

theorem pyMin_eq {α : Type} [LinearOrder α] (x y : α) : pyMin x y = min x y :=
  (min_def x y).symm

/-- Truncation toward zero is bounded above by the floor bound for
nonnegative arguments. -/
theorem pyInt_le (q : ℚ) (hq : 0 ≤ q) : (pyInt q : ℚ) ≤ q := by
  rw [pyInt, if_pos hq, ratFloor_eq]
  exact Int.floor_le q

/-- ZoomableStaticBitmap state (5_sync.py lines 68 to 92): zoom level, pan
offsets, optional source PIL image, optional original bitmap (the display
bitmap argument of SetBitmap, itself modelled as an image value), drag
state, last recorded mouse position, and the container size reported by
GetSize. -/
structure Viewport where
  zoom_level : ℚ
  pan_x : ℤ
  pan_y : ℤ
  source_pil_image : Option PILImage
  original_bitmap : Option PILImage
  dragging : Bool
  last_mouse_x : ℤ
  last_mouse_y : ℤ
  container_w : ℤ
  container_h : ℤ
deriving DecidableEq

/-- min_zoom constant from __init__ (0.1). -/
def min_zoom : ℚ := ⟨1, 10, by decide, by decide⟩

/-- max_zoom constant from __init__ (5.0). -/
def max_zoom : ℚ := 5

theorem min_zoom_val : min_zoom = 1/10 := by
  with_unfolding_all decide

/-- ClampPanPosition (5_sync.py lines 171 to 186).  Only acts when a source
image is present and the zoom level exceeds 1.0; the zoomed size uses
int(dimension * zoom) and the maximum pan distance uses Python floor
division by 2. -/
def clampPanPosition (v : Viewport) : Viewport :=
  match v.source_pil_image with
  | some img =>
    if 1 < v.zoom_level then
      let image_width := pyInt ((img.width : ℚ) * v.zoom_level)
      let image_height := pyInt ((img.height : ℚ) * v.zoom_level)
      let max_pan_x := pyMax 0 (Int.fdiv (image_width - v.container_w) 2)
      let max_pan_y := pyMax 0 (Int.fdiv (image_height - v.container_h) 2)
      { v with pan_x := pyMax (pyMin v.pan_x max_pan_x) (-max_pan_x),
               pan_y := pyMax (pyMin v.pan_y max_pan_y) (-max_pan_y) }
    else v
  | none => v

/-- The wheel factor: 1.1 for a positive wheel rotation, 0.9 otherwise
(5_sync.py line 200). -/
def wheelFactor (deltaPos : Bool) : ℚ := if deltaPos then 11/10 else 9/10

/-- Lines 201 to 204 of OnMouseWheel: the candidate zoom is the current
zoom times the wheel factor, clamped into the min and max zoom bounds. -/
def clampedZoom (z : ℚ) (deltaPos : Bool) : ℚ :=
  pyMax min_zoom (pyMin max_zoom (z * wheelFactor deltaPos))

/-- Lines 211 to 212 of OnMouseWheel, one axis: the anchor-preserving pan
recomputation int(anchor - (anchor - pan) * (newZoom / oldZoom)). -/
def anchorPan (anchor pan : ℤ) (oldZoom newZoom : ℚ) : ℤ :=
  pyInt ((anchor : ℚ) - ((anchor : ℚ) - (pan : ℚ)) * (newZoom / oldZoom))

/-- OnMouseWheel (5_sync.py lines 188 to 219), restricted to its state
effect on the handling viewport.  The second component records whether the
handler reached the SyncMirror call.  UpdateZoom only refreshes the
display bitmap and is elided. -/
def onMouseWheel (v : Viewport) (ctrl deltaPos : Bool) (mx my : ℤ) :
    Viewport × Bool :=
  if ctrl then
    let old_zoom := v.zoom_level
    let new_zoom := clampedZoom v.zoom_level deltaPos
    if new_zoom ≠ v.zoom_level then
      let v1 :=
        if old_zoom ≠ new_zoom then
          { v with
            pan_x := anchorPan mx v.pan_x old_zoom new_zoom,
            pan_y := anchorPan my v.pan_y old_zoom new_zoom }
        else v
      let v2 := { v1 with zoom_level := new_zoom }
      (clampPanPosition v2, true)
    else (v, false)
  else (v, false)

/-- OnMouseDown (5_sync.py lines 135 to 141): begin a drag only when the
zoom level exceeds 1.0. -/
def onMouseDown (v : Viewport) (mx my : ℤ) : Viewport × Bool :=
  if 1 < v.zoom_level then
    ({ v with dragging := true, last_mouse_x := mx, last_mouse_y := my },
     false)
  else (v, false)

/-- OnMouseUp (5_sync.py lines 143 to 146): end the drag. -/
def onMouseUp (v : Viewport) : Viewport × Bool :=
  ({ v with dragging := false }, false)

/-- OnMouseMove (5_sync.py lines 148 to 169): while dragging with the left
button held, add the mouse delta to the pan, record the mouse position,
clamp, and reach SyncMirror. -/
def onMouseMove (v : Viewport) (leftIsDown : Bool) (mx my : ℤ) :
    Viewport × Bool :=
  if v.dragging && leftIsDown then
    let dx := mx - v.last_mouse_x
    let dy := my - v.last_mouse_y
    let v1 := { v with pan_x := v.pan_x + dx, pan_y := v.pan_y + dy,
                       last_mouse_x := mx, last_mouse_y := my }
    (clampPanPosition v1, true)
  else (v, false)

/-- SetBitmap (5_sync.py lines 221 to 228): store the display bitmap,
store a copy of the source PIL image when one is given, and reset zoom to
1.0 and pan to (0, 0).  The Python copy() is value-level here. -/
def setBitmap (v : Viewport) (bitmap : Option PILImage)
    (pil_image : Option PILImage) : Viewport :=
  let v1 := { v with original_bitmap := bitmap }
  let v2 :=
    match pil_image with
    | some img => { v1 with source_pil_image := some img }
    | none => v1
  { v2 with zoom_level := 1, pan_x := 0, pan_y := 0 }

/-- Raw pointer and wheel events routed to a viewport (the Input Router
domain: the handlers bound in __init__). -/
inductive Ev
  | wheel (ctrl deltaPos : Bool) (mx my : ℤ)
  | motion (leftIsDown : Bool) (mx my : ℤ)
  | leftDown (mx my : ℤ)
  | leftUp
deriving DecidableEq

/-- Dispatch one raw event to the matching handler; the Bool records
whether the handler reached its SyncMirror call. -/
def handleEvent (v : Viewport) : Ev → Viewport × Bool
  | .wheel ctrl dp mx my => onMouseWheel v ctrl dp mx my
  | .motion l mx my => onMouseMove v l mx my
  | .leftDown mx my => onMouseDown v mx my
  | .leftUp => onMouseUp v

/-- Every operation that can touch zoom or pan: a routed input event, or a
SetBitmap call (the SetImage entry point). -/
inductive Op
  | mouse (e : Ev)
  | setBmp (bitmap : Option PILImage) (pil_image : Option PILImage)

/-- Apply one operation to a single viewport (mirror propagation aside). -/
def applyOp (v : Viewport) : Op → Viewport
  | .mouse e => (handleEvent v e).1
  | .setBmp b p => setBitmap v b p

/-- True when the zoom level or a pan coordinate differs between the two
states. -/
def zoomPanChanged (v w : Viewport) : Prop :=
  w.zoom_level ≠ v.zoom_level ∨ w.pan_x ≠ v.pan_x ∨ w.pan_y ≠ v.pan_y

instance (v w : Viewport) : Decidable (zoomPanChanged v w) := by
  unfold zoomPanChanged; infer_instance

/-- SyncMirror (5_sync.py lines 127 to 133), seen from the origin: when the
partner canvas already holds a source image, copy zoom and pan verbatim to
it (the partner then re-renders via UpdateZoom, which touches no modelled
state); otherwise leave the partner untouched.  The mirror reference is
always set in the application (lines 396 to 397), so only the
source-image test remains. -/
def syncMirror (origin partner : Viewport) : Viewport :=
  match partner.source_pil_image with
  | some _ => { partner with zoom_level := origin.zoom_level,
                             pan_x := origin.pan_x,
                             pan_y := origin.pan_y }
  | none => partner

/-- The two mutually mirrored canvases of BackgroundRemoverApp. -/
structure CanvasPair where
  left : Viewport
  right : Viewport
deriving DecidableEq

/-- Which canvas an input event lands on. -/
inductive Side
  | L
  | R
deriving DecidableEq

/-- The other canvas. -/
def Side.opp : Side → Side
  | .L => .R
  | .R => .L

/-- Read one canvas of the pair. -/
def CanvasPair.get (p : CanvasPair) : Side → Viewport
  | .L => p.left
  | .R => p.right

/-- Replace one canvas of the pair. -/
def CanvasPair.put (p : CanvasPair) : Side → Viewport → CanvasPair
  | .L, v => { p with left := v }
  | .R, v => { p with right := v }

/-- Process one raw input event on the pair: run the handler on the origin
canvas, then, exactly when the handler reached its SyncMirror call, copy
the origin state to the partner once. -/
def pairStep (p : CanvasPair) (s : Side) (e : Ev) : CanvasPair :=
  let r := handleEvent (p.get s) e
  let p1 := p.put s r.1
  if r.2 then p1.put s.opp (syncMirror r.1 (p.get s.opp)) else p1

theorem opp_ne (s : Side) : s.opp ≠ s := by
  cases s <;> simp [Side.opp]

theorem get_put_same (p : CanvasPair) (s : Side) (v : Viewport) :
    (p.put s v).get s = v := by
  cases s <;> rfl

theorem get_put_opp (p : CanvasPair) (s : Side) (v : Viewport) :
    (p.put s v).get s.opp = p.get s.opp := by
  cases s <;> rfl

theorem pairStep_get_origin (p : CanvasPair) (s : Side) (e : Ev) :
    (pairStep p s e).get s = (handleEvent (p.get s) e).1 := by
  cases s <;>
    simp only [pairStep, CanvasPair.get, CanvasPair.put, Side.opp] <;>
    split <;> rfl

theorem pairStep_get_partner (p : CanvasPair) (s : Side) (e : Ev) :
    (pairStep p s e).get s.opp =
      if (handleEvent (p.get s) e).2 then
        syncMirror (handleEvent (p.get s) e).1 (p.get s.opp)
      else p.get s.opp := by
  cases s <;>
    simp only [pairStep, CanvasPair.get, CanvasPair.put, Side.opp] <;>
    split <;> rfl

theorem clampPanPosition_zoom (v : Viewport) :
    (clampPanPosition v).zoom_level = v.zoom_level := by
  rw [clampPanPosition]
  split
  · split <;> rfl
  · rfl

theorem min_zoom_le_max_zoom : min_zoom ≤ max_zoom := by
  with_unfolding_all decide

theorem pyMax_pyMin_mem (q : ℚ) :
    min_zoom ≤ pyMax min_zoom (pyMin max_zoom q) ∧
      pyMax min_zoom (pyMin max_zoom q) ≤ max_zoom := by
  rw [pyMax_eq, pyMin_eq]
  exact ⟨le_max_left _ _,
    max_le min_zoom_le_max_zoom (min_le_left _ _)⟩

theorem clampedZoom_mem (z : ℚ) (dp : Bool) :
    min_zoom ≤ clampedZoom z dp ∧ clampedZoom z dp ≤ max_zoom := by
  rw [clampedZoom]
  exact pyMax_pyMin_mem _

theorem onMouseWheel_zoom_cases (v : Viewport) (ctrl deltaPos : Bool)
    (mx my : ℤ) :
    (onMouseWheel v ctrl deltaPos mx my).1.zoom_level = v.zoom_level ∨
      (onMouseWheel v ctrl deltaPos mx my).1.zoom_level =
        clampedZoom v.zoom_level deltaPos := by
  simp only [onMouseWheel]
  split
  · split
    · right
      rw [clampPanPosition_zoom]
    · left; rfl
  · left; rfl

/-- A sequence of Ctrl-held wheel events, each carrying a rotation sign and
a pointer position, folded over the wheel handler. -/
def wheelSeq (v : Viewport) (evs : List (Bool × ℤ × ℤ)) : Viewport :=
  evs.foldl (fun w e => (onMouseWheel w true e.1 e.2.1 e.2.2).1) v

/-- C2: for every starting zoom in the interval from min_zoom 0.1 to
max_zoom 5.0 and every sequence of wheel-zoom events (each multiplying the
zoom by 1.1 or 0.9 and clamping), the zoom level stays within the interval
after each event.  Since the sequence is universally quantified, every
prefix of a longer run is itself an instance, so the bound holds after
each individual event. -/
theorem zoom_stays_in_range (v : Viewport) (evs : List (Bool × ℤ × ℤ))
    (h1 : min_zoom ≤ v.zoom_level) (h2 : v.zoom_level ≤ max_zoom) :
    min_zoom ≤ (wheelSeq v evs).zoom_level ∧
      (wheelSeq v evs).zoom_level ≤ max_zoom := by
  induction evs generalizing v with
  | nil => exact ⟨h1, h2⟩
  | cons e rest ih =>
    rw [wheelSeq, List.foldl_cons]
    rcases onMouseWheel_zoom_cases v true e.1 e.2.1 e.2.2 with h | h
    · exact ih _ (h ▸ h1) (h ▸ h2)
    · have := clampedZoom_mem v.zoom_level e.1
      exact ih _ (h ▸ this.1) (h ▸ this.2)

/-- Concrete viewport used to witness the zoom range invariant. -/
def zoomWitnessViewport : Viewport :=
  { zoom_level := 1, pan_x := 0, pan_y := 0,
    source_pil_image := some ⟨"RGB", 800, 600, []⟩,
    original_bitmap := none, dragging := false,
    last_mouse_x := 0, last_mouse_y := 0,
    container_w := 400, container_h := 400 }

/-- Witness for C2 at a concrete viewport and a concrete three-event
sequence (wheel up, wheel up, wheel down). -/
theorem zoom_stays_in_range_witness :
    min_zoom ≤ (wheelSeq zoomWitnessViewport
        [(true, 0, 0), (true, 10, 10), (false, 5, 5)]).zoom_level ∧
      (wheelSeq zoomWitnessViewport
        [(true, 0, 0), (true, 10, 10), (false, 5, 5)]).zoom_level ≤ max_zoom :=
  zoom_stays_in_range zoomWitnessViewport
    [(true, 0, 0), (true, 10, 10), (false, 5, 5)]
    (by with_unfolding_all decide) (by with_unfolding_all decide)

/-- The pan magnitude bound of the data model, per axis: half the excess of
the scaled dimension over the container dimension, floored at zero. -/
def panBound (dim : ℕ) (zoom : ℚ) (container : ℤ) : ℚ :=
  max 0 (((dim : ℚ) * zoom - (container : ℚ)) / 2)

theorem pyMax_zero_nonneg (a : ℤ) : 0 ≤ pyMax 0 a := by
  rw [pyMax_eq]
  exact le_max_left 0 a

theorem clamp_axis_bound (p m : ℤ) (hm : 0 ≤ m) :
    |pyMax (pyMin p m) (-m)| ≤ m := by
  rw [pyMax_eq, pyMin_eq, abs_le]
  refine ⟨le_max_right _ _, max_le (min_le_right _ _) (by omega)⟩

theorem fdiv_two_le (a : ℤ) : ((Int.fdiv a 2 : ℤ) : ℚ) ≤ (a : ℚ) / 2 := by
  rw [Int.fdiv_eq_ediv _ (by norm_num)]
  have h1 : 2 * (a / 2) + a % 2 = a := Int.ediv_add_emod a 2
  have h2 : 0 ≤ a % 2 := Int.emod_nonneg a (by norm_num)
  have h3 : 2 * (a / 2) ≤ a := by omega
  have h4 : ((2 * (a / 2) : ℤ) : ℚ) ≤ (a : ℚ) := by exact_mod_cast h3
  push_cast at h4
  linarith

theorem scaled_fdiv_le_panBound (dim : ℕ) (z : ℚ) (c : ℤ) (hz : 0 ≤ z) :
    ((pyMax 0 (Int.fdiv (pyInt ((dim : ℚ) * z) - c) 2) : ℤ) : ℚ) ≤
      panBound dim z c := by
  rw [pyMax_eq, panBound]
  have hnn : (0 : ℚ) ≤ (dim : ℚ) * z := by positivity
  have h1 : (pyInt ((dim : ℚ) * z) : ℚ) ≤ (dim : ℚ) * z := pyInt_le _ hnn
  have h2 : ((Int.fdiv (pyInt ((dim : ℚ) * z) - c) 2 : ℤ) : ℚ) ≤
      ((dim : ℚ) * z - (c : ℚ)) / 2 := by
    refine le_trans (fdiv_two_le _) ?_
    have : ((pyInt ((dim : ℚ) * z) - c : ℤ) : ℚ) ≤ (dim : ℚ) * z - (c : ℚ) := by
      push_cast
      linarith
    linarith
  push_cast [Int.cast_max]
  exact max_le_max le_rfl h2

theorem clampPanPosition_source (v : Viewport) :
    (clampPanPosition v).source_pil_image = v.source_pil_image := by
  rw [clampPanPosition]
  split
  · split <;> rfl
  · rfl

theorem clampPanPosition_container_w (v : Viewport) :
    (clampPanPosition v).container_w = v.container_w := by
  rw [clampPanPosition]
  split
  · split <;> rfl
  · rfl

theorem clampPanPosition_container_h (v : Viewport) :
    (clampPanPosition v).container_h = v.container_h := by
  rw [clampPanPosition]
  split
  · split <;> rfl
  · rfl

theorem clampPanPosition_bound (v : Viewport) (img : PILImage)
    (hs : v.source_pil_image = some img) (hz : 1 < v.zoom_level) :
    |((clampPanPosition v).pan_x : ℚ)| ≤
        panBound img.width v.zoom_level v.container_w ∧
      |((clampPanPosition v).pan_y : ℚ)| ≤
        panBound img.height v.zoom_level v.container_h := by
  have hz0 : (0 : ℚ) ≤ v.zoom_level := le_of_lt (lt_trans one_pos hz)
  simp only [clampPanPosition, hs, if_pos hz]
  constructor
  · have hb := clamp_axis_bound v.pan_x
      (pyMax 0 (Int.fdiv (pyInt ((img.width : ℚ) * v.zoom_level) - v.container_w) 2))
      (pyMax_zero_nonneg _)
    have hb2 : |((pyMax (pyMin v.pan_x
        (pyMax 0 (Int.fdiv (pyInt ((img.width : ℚ) * v.zoom_level) - v.container_w) 2)))
        (-(pyMax 0 (Int.fdiv (pyInt ((img.width : ℚ) * v.zoom_level) - v.container_w) 2))) : ℤ) : ℚ)| ≤
        ((pyMax 0 (Int.fdiv (pyInt ((img.width : ℚ) * v.zoom_level) - v.container_w) 2) : ℤ) : ℚ) := by
      exact_mod_cast hb
    exact le_trans hb2 (scaled_fdiv_le_panBound img.width v.zoom_level v.container_w hz0)
  · have hb := clamp_axis_bound v.pan_y
      (pyMax 0 (Int.fdiv (pyInt ((img.height : ℚ) * v.zoom_level) - v.container_h) 2))
      (pyMax_zero_nonneg _)
    have hb2 : |((pyMax (pyMin v.pan_y
        (pyMax 0 (Int.fdiv (pyInt ((img.height : ℚ) * v.zoom_level) - v.container_h) 2)))
        (-(pyMax 0 (Int.fdiv (pyInt ((img.height : ℚ) * v.zoom_level) - v.container_h) 2))) : ℤ) : ℚ)| ≤
        ((pyMax 0 (Int.fdiv (pyInt ((img.height : ℚ) * v.zoom_level) - v.container_h) 2) : ℤ) : ℚ) := by
      exact_mod_cast hb
    exact le_trans hb2 (scaled_fdiv_le_panBound img.height v.zoom_level v.container_h hz0)

theorem onMouseWheel_shape (v : Viewport) (ctrl dp : Bool) (mx my : ℤ) :
    onMouseWheel v ctrl dp mx my = (v, false) ∨
      ∃ v2 : Viewport,
        onMouseWheel v ctrl dp mx my = (clampPanPosition v2, true) ∧
        v2.zoom_level =
          clampedZoom v.zoom_level dp ∧
        v2.source_pil_image = v.source_pil_image ∧
        v2.container_w = v.container_w ∧
        v2.container_h = v.container_h := by
  simp only [onMouseWheel]
  split
  · split
    · right
      refine ⟨_, rfl, rfl, ?_, ?_, ?_⟩ <;> (split <;> rfl)
    · left; rfl
  · left; rfl

theorem onMouseMove_shape (v : Viewport) (l : Bool) (mx my : ℤ) :
    onMouseMove v l mx my = (v, false) ∨
      ∃ v1 : Viewport,
        onMouseMove v l mx my = (clampPanPosition v1, true) ∧
        v1.zoom_level = v.zoom_level ∧
        v1.source_pil_image = v.source_pil_image ∧
        v1.container_w = v.container_w ∧
        v1.container_h = v.container_h := by
  simp only [onMouseMove]
  split
  · right
    exact ⟨_, rfl, rfl, rfl, rfl, rfl⟩
  · left; rfl

theorem onMouseDown_zoomPan (v : Viewport) (mx my : ℤ) :
    (onMouseDown v mx my).1.zoom_level = v.zoom_level ∧
      (onMouseDown v mx my).1.pan_x = v.pan_x ∧
      (onMouseDown v mx my).1.pan_y = v.pan_y := by
  rw [onMouseDown]
  split <;> exact ⟨rfl, rfl, rfl⟩

theorem setBitmap_zoom (v : Viewport) (b p : Option PILImage) :
    (setBitmap v b p).zoom_level = 1 := by
  cases p <;> rfl

/-- C1 (amended): after every operation that changes pan or zoom, whenever
the resulting viewport holds a source image and its zoom level exceeds
1.0, each pan coordinate is bounded in magnitude by
max(0, (sourceDimension * zoom - containerDimension) / 2).  The original
claim additionally asserted the bound for zoom at most 1.0 together with
pan forced to (0, 0) there; the counterexample below refutes that part,
because ClampPanPosition only acts when zoom exceeds 1.0 while the wheel
handler recomputes pan before clamping. -/
theorem pan_bound_after_change (v : Viewport) (op : Op) (img : PILImage)
    (hchange : zoomPanChanged v (applyOp v op))
    (himg : (applyOp v op).source_pil_image = some img)
    (hz : 1 < (applyOp v op).zoom_level) :
    |((applyOp v op).pan_x : ℚ)| ≤
        panBound img.width (applyOp v op).zoom_level
          (applyOp v op).container_w ∧
      |((applyOp v op).pan_y : ℚ)| ≤
        panBound img.height (applyOp v op).zoom_level
          (applyOp v op).container_h := by
  cases op with
  | setBmp b p =>
    exfalso
    have h1 : (applyOp v (.setBmp b p)).zoom_level = 1 := setBitmap_zoom v b p
    rw [h1] at hz
    exact lt_irrefl 1 hz
  | mouse e =>
    cases e with
    | wheel ctrl dp mx my =>
      rcases onMouseWheel_shape v ctrl dp mx my with h | ⟨v2, he, _, _, _, _⟩
      · exfalso
        have hv : applyOp v (.mouse (.wheel ctrl dp mx my)) = v := by
          simp [applyOp, handleEvent, h]
        rw [hv] at hchange
        simp [zoomPanChanged] at hchange
      · have happ : applyOp v (.mouse (.wheel ctrl dp mx my)) =
            clampPanPosition v2 := by
          simp [applyOp, handleEvent, he]
        rw [happ] at himg hz ⊢
        rw [clampPanPosition_source] at himg
        rw [clampPanPosition_zoom] at hz
        rw [clampPanPosition_zoom, clampPanPosition_container_w,
          clampPanPosition_container_h]
        exact clampPanPosition_bound v2 img himg hz
    | motion l mx my =>
      rcases onMouseMove_shape v l mx my with h | ⟨v1, he, _, _, _, _⟩
      · exfalso
        have hv : applyOp v (.mouse (.motion l mx my)) = v := by
          simp [applyOp, handleEvent, h]
        rw [hv] at hchange
        simp [zoomPanChanged] at hchange
      · have happ : applyOp v (.mouse (.motion l mx my)) =
            clampPanPosition v1 := by
          simp [applyOp, handleEvent, he]
        rw [happ] at himg hz ⊢
        rw [clampPanPosition_source] at himg
        rw [clampPanPosition_zoom] at hz
        rw [clampPanPosition_zoom, clampPanPosition_container_w,
          clampPanPosition_container_h]
        exact clampPanPosition_bound v1 img himg hz
    | leftDown mx my =>
      exfalso
      obtain ⟨h1, h2, h3⟩ := onMouseDown_zoomPan v mx my
      have : applyOp v (.mouse (.leftDown mx my)) = (onMouseDown v mx my).1 :=
        rfl
      rw [this] at hchange
      simp [zoomPanChanged, h1, h2, h3] at hchange
    | leftUp =>
      exfalso
      simp [applyOp, handleEvent, onMouseUp, zoomPanChanged] at hchange

set_option maxRecDepth 100000 in
/-- Witness for the amended C1 at a concrete input: a Ctrl wheel-up on an
800 by 600 image at zoom 1.0 in a 400 by 400 container. -/
theorem pan_bound_after_change_witness :
    |((applyOp zoomWitnessViewport (Op.mouse (Ev.wheel true true 0 0))).pan_x : ℚ)| ≤
        panBound 800
          (applyOp zoomWitnessViewport (Op.mouse (Ev.wheel true true 0 0))).zoom_level
          (applyOp zoomWitnessViewport (Op.mouse (Ev.wheel true true 0 0))).container_w ∧
      |((applyOp zoomWitnessViewport (Op.mouse (Ev.wheel true true 0 0))).pan_y : ℚ)| ≤
        panBound 600
          (applyOp zoomWitnessViewport (Op.mouse (Ev.wheel true true 0 0))).zoom_level
          (applyOp zoomWitnessViewport (Op.mouse (Ev.wheel true true 0 0))).container_h :=
  pan_bound_after_change zoomWitnessViewport (Op.mouse (Ev.wheel true true 0 0))
    ⟨"RGB", 800, 600, []⟩
    (by with_unfolding_all decide)
    (by with_unfolding_all decide)
    (by with_unfolding_all decide)

/-- Viewport for the C1 counterexample: a 100 by 100 image in a 400 by 400
container at zoom 1.1 with pan (0, 0).  This state is reachable: SetBitmap
installs the image at zoom 1.0, and one Ctrl wheel-up at pointer (0, 0)
yields zoom 1.1 with pan clamped to (0, 0). -/
def cexViewportC1 : Viewport :=
  { zoom_level := 11/10, pan_x := 0, pan_y := 0,
    source_pil_image := some ⟨"RGB", 100, 100, []⟩,
    original_bitmap := none, dragging := false,
    last_mouse_x := 0, last_mouse_y := 0,
    container_w := 400, container_h := 400 }

/-- C1 counterexample: from the reachable state cexViewportC1, a Ctrl
wheel-down at pointer (200, 200) changes the zoom to 0.99 and recomputes
the pan to (20, 20) via the anchor formula, and ClampPanPosition then does
nothing because the zoom no longer exceeds 1.0.  The resulting state has a
source image, zoom at most 1.0, nonzero pan, and a pan magnitude strictly
above the claimed bound max(0, (100 * 0.99 - 400) / 2) = 0: both halves of
the claimed invariant fail. -/
theorem pan_invariant_counterexample :
    (applyOp cexViewportC1
        (Op.mouse (Ev.wheel true false 200 200))).source_pil_image.isSome = true ∧
      (applyOp cexViewportC1
        (Op.mouse (Ev.wheel true false 200 200))).zoom_level ≤ 1 ∧
      (applyOp cexViewportC1
        (Op.mouse (Ev.wheel true false 200 200))).pan_x = 20 ∧
      ¬(|((applyOp cexViewportC1
            (Op.mouse (Ev.wheel true false 200 200))).pan_x : ℚ)| ≤
          panBound 100
            (applyOp cexViewportC1
              (Op.mouse (Ev.wheel true false 200 200))).zoom_level
            (applyOp cexViewportC1
              (Op.mouse (Ev.wheel true false 200 200))).container_w) := by
  with_unfolding_all decide

theorem put_get_self (p : CanvasPair) (s : Side) :
    p.put s (p.get s) = p := by
  cases s <;> rfl

theorem onMouseWheel_noop (v : Viewport) (dp : Bool) (mx my : ℤ)
    (h : clampedZoom v.zoom_level dp = v.zoom_level) :
    onMouseWheel v true dp mx my = (v, false) := by
  simp only [onMouseWheel, if_true]
  rw [if_neg (not_not_intro h)]

theorem onMouseWheel_changed (v : Viewport) (dp : Bool) (mx my : ℤ)
    (h : clampedZoom v.zoom_level dp ≠ v.zoom_level) :
    onMouseWheel v true dp mx my =
      (clampPanPosition
        { v with
          zoom_level := clampedZoom v.zoom_level dp,
          pan_x := anchorPan mx v.pan_x v.zoom_level
            (clampedZoom v.zoom_level dp),
          pan_y := anchorPan my v.pan_y v.zoom_level
            (clampedZoom v.zoom_level dp) }, true) := by
  simp only [onMouseWheel, if_true]
  rw [if_pos h, if_pos (Ne.symm h)]

/-- C3: wheel zoom with anchor point.  When the clamped new zoom equals the
current zoom, the event is a no-op: the whole canvas pair is unchanged (no
viewport field changes and no mirror propagation occurs).  When it
differs, the origin viewport receives the clamped zoom and, per axis, the
pan anchor - (anchor - pan) * (newZoom / oldZoom) truncated to int, and
the result is clamped per the pan invariant by ClampPanPosition. -/
theorem wheel_zoom_spec (p : CanvasPair) (s : Side) (dp : Bool) (mx my : ℤ) :
    (clampedZoom (p.get s).zoom_level dp = (p.get s).zoom_level →
      pairStep p s (.wheel true dp mx my) = p) ∧
    (clampedZoom (p.get s).zoom_level dp ≠ (p.get s).zoom_level →
      (pairStep p s (.wheel true dp mx my)).get s =
        clampPanPosition
          { p.get s with
            zoom_level := clampedZoom (p.get s).zoom_level dp,
            pan_x := anchorPan mx (p.get s).pan_x (p.get s).zoom_level
              (clampedZoom (p.get s).zoom_level dp),
            pan_y := anchorPan my (p.get s).pan_y (p.get s).zoom_level
              (clampedZoom (p.get s).zoom_level dp) }) := by
  constructor
  · intro h
    have hr : handleEvent (p.get s) (.wheel true dp mx my) = (p.get s, false) :=
      onMouseWheel_noop _ dp mx my h
    rw [pairStep, hr]
    exact put_get_self p s
  · intro h
    rw [pairStep_get_origin, handleEvent, onMouseWheel_changed _ dp mx my h]

/-- Canvas pair used to witness the no-op half of the wheel-zoom
specification: the left canvas sits at the maximal zoom 5.0. -/
def maxZoomPair : CanvasPair :=
  { left :=
      { zoom_level := 5, pan_x := 3, pan_y := 4,
        source_pil_image := some ⟨"RGB", 800, 600, []⟩,
        original_bitmap := none, dragging := false,
        last_mouse_x := 0, last_mouse_y := 0,
        container_w := 400, container_h := 400 },
    right :=
      { zoom_level := 5, pan_x := 3, pan_y := 4,
        source_pil_image := some ⟨"RGBA", 800, 600, []⟩,
        original_bitmap := none, dragging := false,
        last_mouse_x := 0, last_mouse_y := 0,
        container_w := 400, container_h := 400 } }

/-- Witness for C3: at zoom 5.0 a wheel-up clamps back to 5.0, so the
event is a no-op on the whole pair. -/
theorem wheel_zoom_spec_witness :
    pairStep maxZoomPair .L (.wheel true true 7 9) = maxZoomPair :=
  (wheel_zoom_spec maxZoomPair .L true 7 9).1 (by with_unfolding_all decide)

theorem handleEvent_no_sync (v : Viewport) (e : Ev)
    (hf : (handleEvent v e).2 = false) :
    (handleEvent v e).1.zoom_level = v.zoom_level ∧
      (handleEvent v e).1.pan_x = v.pan_x ∧
      (handleEvent v e).1.pan_y = v.pan_y := by
  cases e with
  | wheel ctrl dp mx my =>
    cases ctrl
    · exact ⟨rfl, rfl, rfl⟩
    · rcases onMouseWheel_shape v true dp mx my with h | ⟨v2, he, _, _, _, _⟩
      · have : handleEvent v (.wheel true dp mx my) = (v, false) := h
        rw [this]
        exact ⟨rfl, rfl, rfl⟩
      · have : handleEvent v (.wheel true dp mx my) =
            (clampPanPosition v2, true) := he
        rw [this] at hf
        cases hf
  | motion l mx my =>
    rcases onMouseMove_shape v l mx my with h | ⟨v1, he, _, _, _, _⟩
    · have : handleEvent v (.motion l mx my) = (v, false) := h
      rw [this]
      exact ⟨rfl, rfl, rfl⟩
    · have : handleEvent v (.motion l mx my) = (clampPanPosition v1, true) := he
      rw [this] at hf
      cases hf
  | leftDown mx my => exact onMouseDown_zoomPan v mx my
  | leftUp => exact ⟨rfl, rfl, rfl⟩

/-- C4: whenever a routed input event actually changes the zoom or pan of
the origin canvas, the partner canvas with a source image ends the event
with exactly the zoom and pan of the origin, and a partner without a
source image is left entirely unchanged.  The quantification is over the
Input Router events that SyncMirror serves (wheel and drag); SetBitmap has
no SyncMirror call and is outside this propagation rule. -/
theorem mirror_propagation (p : CanvasPair) (s : Side) (e : Ev)
    (hchange : zoomPanChanged (p.get s) ((pairStep p s e).get s)) :
    ((p.get s.opp).source_pil_image.isSome = true →
      ((pairStep p s e).get s.opp).zoom_level =
          ((pairStep p s e).get s).zoom_level ∧
        ((pairStep p s e).get s.opp).pan_x = ((pairStep p s e).get s).pan_x ∧
        ((pairStep p s e).get s.opp).pan_y = ((pairStep p s e).get s).pan_y) ∧
    ((p.get s.opp).source_pil_image = none →
      (pairStep p s e).get s.opp = p.get s.opp) := by
  have hsync : (handleEvent (p.get s) e).2 = true := by
    by_contra hf
    rw [Bool.not_eq_true] at hf
    obtain ⟨h1, h2, h3⟩ := handleEvent_no_sync (p.get s) e hf
    rw [pairStep_get_origin] at hchange
    simp [zoomPanChanged, h1, h2, h3] at hchange
  rw [pairStep_get_partner, if_pos hsync, pairStep_get_origin]
  constructor
  · intro hsome
    obtain ⟨img, himg⟩ := Option.isSome_iff_exists.mp hsome
    simp only [syncMirror, himg]
    exact ⟨trivial, trivial, trivial⟩
  · intro hnone
    simp only [syncMirror, hnone]

/-- Canvas pair used to witness the mirror propagation rule: both canvases
hold images and start with different view transforms. -/
def mirrorPair : CanvasPair :=
  { left :=
      { zoom_level := 1, pan_x := 0, pan_y := 0,
        source_pil_image := some ⟨"RGB", 800, 600, []⟩,
        original_bitmap := none, dragging := false,
        last_mouse_x := 0, last_mouse_y := 0,
        container_w := 400, container_h := 400 },
    right :=
      { zoom_level := 3, pan_x := 15, pan_y := -8,
        source_pil_image := some ⟨"RGBA", 800, 600, []⟩,
        original_bitmap := none, dragging := false,
        last_mouse_x := 0, last_mouse_y := 0,
        container_w := 400, container_h := 400 } }

set_option maxRecDepth 100000 in
/-- Witness for C4: a Ctrl wheel-up on the left canvas changes its zoom,
and the right canvas (which holds an image) ends with the same zoom and
pan as the left. -/
theorem mirror_propagation_witness :
    ((pairStep mirrorPair .L (.wheel true true 0 0)).get (Side.opp .L)).zoom_level =
        ((pairStep mirrorPair .L (.wheel true true 0 0)).get .L).zoom_level ∧
      ((pairStep mirrorPair .L (.wheel true true 0 0)).get (Side.opp .L)).pan_x =
        ((pairStep mirrorPair .L (.wheel true true 0 0)).get .L).pan_x ∧
      ((pairStep mirrorPair .L (.wheel true true 0 0)).get (Side.opp .L)).pan_y =
        ((pairStep mirrorPair .L (.wheel true true 0 0)).get .L).pan_y :=
  (mirror_propagation mirrorPair .L (.wheel true true 0 0)
    (by with_unfolding_all decide)).1 (by with_unfolding_all decide)

/-- C5: mirror propagation is single-hop.  Processing one input event on
one side of the mutually mirrored pair leaves the origin exactly as its
own local handler computes it, independent of any propagation, and writes
the partner at most once (either untouched, or a single copy of the origin
state).  In particular the partner update never triggers a propagation
back to the origin within the same event, so one event performs a bounded,
non-recursive number of viewport mutations despite the symmetric mirror
relation. -/
theorem single_hop (p : CanvasPair) (s : Side) (e : Ev) :
    (pairStep p s e).get s = (handleEvent (p.get s) e).1 ∧
      ((pairStep p s e).get s.opp = p.get s.opp ∨
        (pairStep p s e).get s.opp =
          syncMirror ((pairStep p s e).get s) (p.get s.opp)) := by
  refine ⟨pairStep_get_origin p s e, ?_⟩
  rw [pairStep_get_partner, pairStep_get_origin]
  split
  · right; rfl
  · left; rfl

/-- C6: SetBitmap with a source image installs the image (stored as a
copy, which is value-level identity here) and resets the zoom to 1.0 and
the pan to (0, 0), unconditionally for every prior viewport state and
every image, with no error condition: the function is total and this
equality has no side hypothesis. -/
theorem setBitmap_resets (v : Viewport) (bmp : Option PILImage)
    (img : PILImage) :
    setBitmap v bmp (some img) =
      { v with original_bitmap := bmp, source_pil_image := some img,
               zoom_level := 1, pan_x := 0, pan_y := 0 } := rfl

/-- round_aspect from PIL Image.thumbnail: the floor or the ceiling of the
number, whichever the key prefers (the floor on ties), and at least 1. -/
def round_aspect (number : ℚ) (key : ℤ → ℚ) : ℤ :=
  pyMax (if key (ratFloor number) ≤ key (ratCeil number)
         then ratFloor number
         else ratCeil number) 1

/-- The size computed by PIL Image.thumbnail when the image does not
already fit: preserve the aspect ratio while fitting the target box
(external library, modelled from its implementation). -/
def thumbSize (w h tw th : ℕ) : ℕ × ℕ :=
  let aspect : ℚ := (w : ℚ) / (h : ℚ)
  if aspect ≤ (tw : ℚ) / (th : ℚ) then
    ((round_aspect ((th : ℚ) * aspect)
        (fun n => |aspect - (n : ℚ) / (th : ℚ)|)).toNat, th)
  else
    (tw, (round_aspect ((tw : ℚ) / aspect)
        (fun n => if n = 0 then 0 else |aspect - (tw : ℚ) / (n : ℚ)|)).toNat)

/-- PIL Image.thumbnail at the value level: a no-op when the image already
fits the target box or when the computed size equals the current size;
otherwise the new dimensions, with pixels produced by the external LANCZOS
resampler, which is a parameter. -/
def thumbnailVal (resampleFn : PILImage → ℕ → ℕ → List Pixel)
    (img : PILImage) (tw th : ℕ) : PILImage :=
  if img.width ≤ tw ∧ img.height ≤ th then img
  else
    let s := thumbSize img.width img.height tw th
    if s = (img.width, img.height) then img
    else { img with width := s.1, height := s.2,
                    pixels := resampleFn img s.1 s.2 }

/-- display_image (5_sync.py lines 549 to 570): thumbnail a copy of the
image to the 400 by 400 canvas size for the display bitmap, reset the
canvas zoom, and call SetBitmap with the display bitmap and the full
source image. -/
def display_image (resampleFn : PILImage → ℕ → ℕ → List Pixel)
    (canvas : Viewport) (pil_image : PILImage) : Viewport :=
  let image := thumbnailVal resampleFn pil_image 400 400
  let canvas1 := { canvas with zoom_level := 1 }
  setBitmap canvas1 (some image) (some pil_image)

/-- A decode failure of an ingested image, as named by the specification. -/
inductive IngestError
  | DecodeError
deriving DecidableEq

/-- The application state around the two canvases (5_sync.py lines 373 to
454): the paste-enabled left canvas, the plain right canvas, the
frame-level original image reference and the remove-button state. -/
structure AppState where
  left_canvas : Viewport
  right_canvas : Viewport
  original_image : Option PILImage
  remove_button_enabled : Bool
deriving DecidableEq

/-- ImageDropTarget.OnData, filename branch (5_sync.py lines 362 to 370):
decode the dropped path with the external decoder (Image.open together
with the decode it triggers).  On success, install the image in the left
canvas via display_image, store it as the original image and enable the
remove button; on failure, report the error and touch nothing. -/
def onDataFilename (decode : String → Option PILImage)
    (resampleFn : PILImage → ℕ → ℕ → List Pixel)
    (st : AppState) (filename : String) : AppState × Option IngestError :=
  match decode filename with
  | some pil_image =>
    ({ st with original_image := some pil_image,
               left_canvas := display_image resampleFn st.left_canvas pil_image,
               remove_button_enabled := true }, none)
  | none => (st, some IngestError.DecodeError)

/-- C7: dropping a filesystem path whose file cannot be decoded as an
image surfaces a DecodeError to the caller and leaves the whole
application state, in particular every field of the target viewport
(source image, zoom, pan), exactly as it was before the drop. -/
theorem drop_decode_failure (decode : String → Option PILImage)
    (resampleFn : PILImage → ℕ → ℕ → List Pixel)
    (st : AppState) (filename : String)
    (h : decode filename = none) :
    onDataFilename decode resampleFn st filename =
      (st, some IngestError.DecodeError) := by
  rw [onDataFilename, h]

/-- Concrete application state used to witness the drop failure claim. -/
def dropWitnessState : AppState :=
  { left_canvas := zoomWitnessViewport,
    right_canvas := zoomWitnessViewport,
    original_image := none,
    remove_button_enabled := false }

/-- Witness for C7 at a concrete state with an always-failing decoder. -/
theorem drop_decode_failure_witness :
    onDataFilename (fun _ => none) (fun _ _ _ => []) dropWitnessState
        "corrupt.txt" = (dropWitnessState, some IngestError.DecodeError) :=
  drop_decode_failure (fun _ => none) (fun _ _ _ => []) dropWitnessState
    "corrupt.txt" rfl

/-- PIL convert to RGB for the direct-colour modes this application
produces (RGB and RGBA): keep red, green and blue, drop the alpha channel
(represented here by setting it to the opaque value 255). -/
def convertToRGB (img : PILImage) : PILImage :=
  { mode := "RGB", width := img.width, height := img.height,
    pixels := img.pixels.map fun p => ⟨p.r, p.g, p.b, 255⟩ }

/-- OnCopy (5_sync.py lines 103 to 121): with a source image present, copy
it, convert it to RGB when its mode is not RGB, and hand the bitmap data
to the clipboard (the returned value); with no source image, do nothing. -/
def onCopy (v : Viewport) : Option PILImage :=
  match v.source_pil_image with
  | some src => some (if src.mode ≠ "RGB" then convertToRGB src else src)
  | none => none

/-- The colour components of one pixel. -/
def rgbOf (p : Pixel) : ℕ × ℕ × ℕ := (p.r, p.g, p.b)

/-- C8: for every viewport holding a source image (of the direct-colour
modes RGB or RGBA that this application produces), OnCopy yields clipboard
bitmap data with exactly the dimensions and colour values of the current
source image, and the result is invariant under every change of zoom and
pan: the export reads the unmodified source, never the zoomed or panned
render. -/
theorem copy_exports_source (v : Viewport) (src : PILImage)
    (hs : v.source_pil_image = some src)
    (hm : src.mode = "RGB" ∨ src.mode = "RGBA") :
    ∃ out : PILImage, onCopy v = some out ∧
      out.width = src.width ∧ out.height = src.height ∧
      out.pixels.map rgbOf = src.pixels.map rgbOf ∧
      ∀ z : ℚ, ∀ px py : ℤ,
        onCopy { v with zoom_level := z, pan_x := px, pan_y := py } =
          some out := by
  refine ⟨if src.mode ≠ "RGB" then convertToRGB src else src,
    ?_, ?_, ?_, ?_, ?_⟩
  · rw [onCopy, hs]
  · split <;> rfl
  · split <;> rfl
  · split
    · simp only [convertToRGB, List.map_map]
      rfl
    · rfl
  · intro z px py
    have hsrc : ({ v with zoom_level := z, pan_x := px, pan_y := py } :
        Viewport).source_pil_image = some src := hs
    rw [onCopy, hsrc]

/-- Concrete viewport used to witness the copy-out claim: an RGBA source
with partial transparency, viewed zoomed and panned. -/
def copyWitnessViewport : Viewport :=
  { zoom_level := 3, pan_x := 40, pan_y := -12,
    source_pil_image := some ⟨"RGBA", 2, 1, [⟨1, 2, 3, 128⟩, ⟨4, 5, 6, 255⟩]⟩,
    original_bitmap := none, dragging := false,
    last_mouse_x := 0, last_mouse_y := 0,
    container_w := 400, container_h := 400 }

/-- Witness for C8 at the concrete viewport. -/
theorem copy_exports_source_witness :
    ∃ out : PILImage, onCopy copyWitnessViewport = some out ∧
      out.width = 2 ∧ out.height = 1 ∧
      out.pixels.map rgbOf =
        ([⟨1, 2, 3, 128⟩, ⟨4, 5, 6, 255⟩] : List Pixel).map rgbOf ∧
      ∀ z : ℚ, ∀ px py : ℤ,
        onCopy { copyWitnessViewport with
                   zoom_level := z, pan_x := px, pan_y := py } = some out :=
  copy_exports_source copyWitnessViewport
    ⟨"RGBA", 2, 1, [⟨1, 2, 3, 128⟩, ⟨4, 5, 6, 255⟩]⟩ rfl (Or.inr rfl)

/-- A reference to a PIL image object in the Python heap. -/
abbrev Ref := ℕ

/-- The Python object heap for PIL images: an allocation counter and a
store.  Object identity (aliasing) is visible at this level, unlike in
the value-level viewport model above. -/
structure Heap where
  next : ℕ
  mem : ℕ → Option PILImage

/-- Read an image object. -/
def Heap.get (h : Heap) (r : Ref) : PILImage := (h.mem r).getD default

/-- Overwrite an image object in place. -/
def Heap.set (h : Heap) (r : Ref) (img : PILImage) : Heap :=
  ⟨h.next, fun q => if q = r then some img else h.mem q⟩

/-- Allocate a fresh image object. -/
def Heap.alloc (h : Heap) (img : PILImage) : Heap × Ref :=
  (⟨h.next + 1, fun q => if q = h.next then some img else h.mem q⟩, h.next)

/-- PIL Image.copy(): allocate a fresh object with the same value. -/
def pilCopy (h : Heap) (r : Ref) : Heap × Ref := h.alloc (h.get r)

/-- PIL Image.thumbnail at the heap level: an in-place mutation of the
receiver object. -/
def pilThumbnail (resampleFn : PILImage → ℕ → ℕ → List Pixel)
    (h : Heap) (r : Ref) (tw th : ℕ) : Heap :=
  h.set r (thumbnailVal resampleFn (h.get r) tw th)

/-- resize_image_with_aspect_ratio (5_sync.py lines 54 to 66): call
image.thumbnail(target_size), which mutates the image in place, and
return the same image object. -/
def resize_image_with_aspect_ratio
    (resampleFn : PILImage → ℕ → ℕ → List Pixel)
    (h : Heap) (image : Ref) (tw th : ℕ) : Heap × Ref :=
  (pilThumbnail resampleFn h image tw th, image)

theorem Heap.get_set_ne (h : Heap) (r q : Ref) (img : PILImage)
    (hne : q ≠ r) : (h.set r img).get q = h.get q := by
  simp only [Heap.set, Heap.get]
  rw [if_neg hne]

theorem Heap.get_alloc_new (h : Heap) (img : PILImage) :
    (h.alloc img).1.get (h.alloc img).2 = img := by
  simp [Heap.alloc, Heap.get]

/-- Viewport state at the heap level, holding references instead of image
values, so that Python object identity is visible. -/
structure ViewportR where
  zoom_level : ℚ
  pan_x : ℤ
  pan_y : ℤ
  source_ref : Option Ref
  original_bitmap_ref : Option Ref

/-- SetBitmap at the heap level (5_sync.py lines 221 to 228): the source
image is stored as a fresh copy of the given object, pil_image.copy(). -/
def setBitmapH (h : Heap) (v : ViewportR) (bitmap : Option Ref)
    (pil_image : Option Ref) : Heap × ViewportR :=
  match pil_image with
  | some r =>
    let hc := pilCopy h r
    (hc.1, { v with original_bitmap_ref := bitmap, source_ref := some hc.2,
                    zoom_level := 1, pan_x := 0, pan_y := 0 })
  | none =>
    (h, { v with original_bitmap_ref := bitmap,
                 zoom_level := 1, pan_x := 0, pan_y := 0 })

/-- Image for the C9 counterexample: 2000 by 1 pixels, wider than the 1280
by 1280 processing box used by on_remove_background. -/
def wideImage : PILImage :=
  ⟨"RGB", 2000, 1, List.replicate 2000 ⟨0, 0, 0, 255⟩⟩

/-- Heap for the C9 counterexample: one object, the wide image, at
reference 0. -/
def heapC9 : Heap := ⟨1, fun r => if r = 0 then some wideImage else none⟩

/-- C9 counterexample: resize_image_with_aspect_ratio does not return a
new RasterImage distinct from its input.  With the 2000 by 1 image at
reference 0 and the 1280 by 1280 processing box of on_remove_background,
it returns reference 0 itself, and the object at that reference has been
mutated in place from width 2000 to width 1280, because PIL thumbnail
mutates its receiver. -/
theorem resize_returns_same_object :
    (resize_image_with_aspect_ratio (fun _ _ _ => []) heapC9 0 1280 1280).2
        = 0 ∧
      ((resize_image_with_aspect_ratio (fun _ _ _ => [])
          heapC9 0 1280 1280).1.get 0).width = 1280 ∧
      (heapC9.get 0).width = 2000 := by
  with_unfolding_all decide

/-- C9 (amended): an image installed in a viewport via SetBitmap is stored
as a fresh copy, distinct from the caller-held object, and that stored
copy is never mutated by the later in-place resize-for-processing of the
original object; resize_image_with_aspect_ratio itself, however, mutates
its argument in place and returns the very same object rather than a
distinct new image (recorded by the counterexample). -/
theorem installed_copy_not_mutated
    (resampleFn : PILImage → ℕ → ℕ → List Pixel) (h : Heap) (v : ViewportR)
    (bitmap : Option Ref) (r : Ref) (tw th : ℕ) (hr : r < h.next) :
    (setBitmapH h v bitmap (some r)).2.source_ref = some h.next ∧
      h.next ≠ r ∧
      (resize_image_with_aspect_ratio resampleFn
          (setBitmapH h v bitmap (some r)).1 r tw th).2 = r ∧
      (resize_image_with_aspect_ratio resampleFn
          (setBitmapH h v bitmap (some r)).1 r tw th).1.get h.next =
        h.get r := by
  refine ⟨rfl, (Nat.ne_of_lt hr).symm, rfl, ?_⟩
  rw [show (resize_image_with_aspect_ratio resampleFn
        (setBitmapH h v bitmap (some r)).1 r tw th).1 =
      ((h.alloc (h.get r)).1).set r
        (thumbnailVal resampleFn (((h.alloc (h.get r)).1).get r) tw th)
    from rfl]
  rw [Heap.get_set_ne _ _ _ _ (Nat.ne_of_lt hr).symm]
  exact Heap.get_alloc_new h (h.get r)

/-- Heap-level viewport used by the C9 witness. -/
def viewR0 : ViewportR := ⟨1, 0, 0, none, none⟩

/-- Witness for the amended C9: install the wide image into a viewport,
resize the original in place; the installed copy (reference 1) still holds
the original value. -/
theorem installed_copy_not_mutated_witness :
    (setBitmapH heapC9 viewR0 none (some 0)).2.source_ref = some 1 ∧
      (1 : ℕ) ≠ 0 ∧
      (resize_image_with_aspect_ratio (fun _ _ _ => [])
          (setBitmapH heapC9 viewR0 none (some 0)).1 0 1280 1280).2 = 0 ∧
      (resize_image_with_aspect_ratio (fun _ _ _ => [])
          (setBitmapH heapC9 viewR0 none (some 0)).1 0 1280 1280).1.get 1 =
        heapC9.get 0 :=
  installed_copy_not_mutated (fun _ _ _ => []) heapC9 viewR0 none 0 1280 1280
    (by decide)

/-- The minimum of the alpha band as PIL getextrema reports it: the least
alpha value over the pixel buffer, none when the buffer is empty. -/
def alphaExtremaMin (img : PILImage) : Option ℕ :=
  match img.pixels.map Pixel.a with
  | [] => none
  | x :: xs => some (xs.foldl min x)

/-- The skip test of remove_background, line 32 of 5_sync.py and line 27
of cli_rb.py: image.getextrema()[3][0] < 255. -/
def alphaMinBelow255 (img : PILImage) : Bool :=
  match alphaExtremaMin img with
  | some m => decide (m < 255)
  | none => false

theorem foldl_min_lt (l : List ℕ) (a c : ℕ) :
    l.foldl min a < c ↔ a < c ∨ ∃ b ∈ l, b < c := by
  induction l generalizing a with
  | nil => simp
  | cons x xs ih =>
    rw [List.foldl_cons, ih]
    simp only [List.mem_cons]
    constructor
    · rintro (h | ⟨b, hb, hbc⟩)
      · rcases min_lt_iff.mp h with h | h
        · exact Or.inl h
        · exact Or.inr ⟨x, Or.inl rfl, h⟩
      · exact Or.inr ⟨b, Or.inr hb, hbc⟩
    · rintro (h | ⟨b, hb | hb, hbc⟩)
      · exact Or.inl (min_lt_iff.mpr (Or.inl h))
      · exact Or.inl (min_lt_iff.mpr (Or.inr (hb ▸ hbc)))
      · exact Or.inr ⟨b, hb, hbc⟩

theorem alphaMinBelow255_iff (img : PILImage) :
    alphaMinBelow255 img = true ↔ ∃ p ∈ img.pixels, p.a < 255 := by
  rw [alphaMinBelow255, alphaExtremaMin]
  cases hl : img.pixels with
  | nil => simp
  | cons p ps =>
    simp only [List.map_cons, decide_eq_true_eq]
    rw [foldl_min_lt]
    constructor
    · rintro (h | ⟨b, hb, hbc⟩)
      · exact ⟨p, List.mem_cons_self p ps, h⟩
      · obtain ⟨q, hq, rfl⟩ := List.mem_map.mp hb
        exact ⟨q, List.mem_cons_of_mem p hq, hbc⟩
    · rintro ⟨q, hq, hqc⟩
      rcases List.mem_cons.mp hq with rfl | hq
      · exact Or.inl hqc
      · exact Or.inr ⟨q.a, List.mem_map.mpr ⟨q, hq, rfl⟩, hqc⟩

/-- remove_background (5_sync.py lines 13 to 37; cli_rb.py lines 8 to 32,
identical): skip the rembg call when the image is RGBA and its least alpha
is below 255, unless forced.  The external model rembg.remove is a
parameter; the Bool of the result records whether it was invoked. -/
def remove_background (rembgFn : PILImage → PILImage) (image : PILImage)
    (force : Bool) : PILImage × Bool :=
  let do_remove := true
  let do_remove :=
    if image.mode = "RGBA" ∧ alphaMinBelow255 image = true then false
    else do_remove
  let do_remove := do_remove || force
  if do_remove then (rembgFn image, true) else (image, false)

/-- C10: remove_background with force false returns an RGBA input having
at least one alpha value below 255 unchanged, without invoking the
external rembg model (the result does not apply rembgFn, for every
rembgFn); every other input (non-RGBA mode, fully opaque alpha, or force
true) is passed to the model and its output returned. -/
theorem remove_background_spec (rembgFn : PILImage → PILImage)
    (image : PILImage) (force : Bool) :
    ((image.mode = "RGBA" ∧ (∃ p ∈ image.pixels, p.a < 255) ∧
        force = false) →
      remove_background rembgFn image force = (image, false)) ∧
    ((¬(image.mode = "RGBA" ∧ ∃ p ∈ image.pixels, p.a < 255) ∨
        force = true) →
      remove_background rembgFn image force = (rembgFn image, true)) := by
  constructor
  · rintro ⟨hm, hex, hf⟩
    have hc : image.mode = "RGBA" ∧ alphaMinBelow255 image = true :=
      ⟨hm, (alphaMinBelow255_iff image).mpr hex⟩
    simp only [remove_background, if_pos hc, hf, Bool.false_or]
    rfl
  · intro hother
    rcases hother with hno | hforce
    · have hc : ¬(image.mode = "RGBA" ∧ alphaMinBelow255 image = true) := by
        intro ⟨hm, ha⟩
        exact hno ⟨hm, (alphaMinBelow255_iff image).mp ha⟩
      simp only [remove_background, if_neg hc, Bool.true_or]
      rfl
    · simp only [remove_background, hforce, Bool.or_true]
      rfl

/-- Image for the C10 witness: one partially transparent RGBA pixel. -/
def transparentImage : PILImage := ⟨"RGBA", 1, 1, [⟨10, 20, 30, 100⟩]⟩

/-- Witness for C10: the transparent RGBA image is returned unchanged and
the model is not invoked (here instantiated with an arbitrary concrete
function for the external model). -/
theorem remove_background_spec_witness :
    remove_background convertToRGB transparentImage false =
      (transparentImage, false) :=
  (remove_background_spec convertToRGB transparentImage false).1 (by decide)

end BackgroundRemover
